import Mathlib

/-!
Verification of the camera-data processing pipeline
(`process_camera_data.py`): timestamp resolution, per-day sequence
naming, photo copying, video conversion, and the dispatcher's error
policy.  External collaborators (the EXIF reader, the `ffprobe`
metadata prober, `ffmpeg`, `strptime`/`fromisoformat`, and the
filesystem) are modelled as explicit inputs, following the
specification's collaborator interfaces.
-/

namespace Camera

/-! ## Decimal rendering (model of Python `str(n)` / `format(n, "03d")`) -/

/-- Decimal digit character for a value below ten. -/
def digitChar : Nat → Char
  | 0 => '0' | 1 => '1' | 2 => '2' | 3 => '3' | 4 => '4'
  | 5 => '5' | 6 => '6' | 7 => '7' | 8 => '8' | _ => '9'

/-- Fuel-driven digit rendering; with fuel above the value it renders
all decimal digits, most significant first. -/
def natDigitsAux : Nat → Nat → List Char
  | 0, _ => []
  | fuel + 1, n =>
    if n < 10 then [digitChar n]
    else natDigitsAux fuel (n / 10) ++ [digitChar (n % 10)]

/-- Decimal digit list of a natural number, most significant first
(model of Python's decimal rendering of a non-negative integer). -/
def natDigits (n : Nat) : List Char :=
  natDigitsAux (n + 1) n

/-- Zero-padding to a minimum width, model of Python `format(n, "0Nd")`
for non-negative `n`: pads with leading zeros up to the width, and
renders at full width beyond it. -/
def padList (w n : Nat) : List Char :=
  List.replicate (w - (natDigits n).length) '0' ++ natDigits n

/-- String form of `padList`. -/
def padStr (w n : Nat) : String :=
  String.mk (padList w n)

/-- Value of a digit list, used to show renderings are injective. -/
def digitsVal (l : List Char) : Nat :=
  l.foldl (fun a c => 10 * a + (c.toNat - 48)) 0

/-! ## Dates and datetimes -/

/-- Calendar date (the date component consumed by the Sequence Namer). -/
structure Date where
  year : Nat
  month : Nat
  day : Nat
deriving DecidableEq, Repr

/-- Datetime value, the shape returned by the Timestamp Resolver
(model of Python `datetime`). -/
structure DateTime where
  year : Nat
  month : Nat
  day : Nat
  hour : Nat
  minute : Nat
  second : Nat
deriving DecidableEq, Repr

/-- Date component of a datetime. -/
def DateTime.date (dt : DateTime) : Date :=
  ⟨dt.year, dt.month, dt.day⟩

/-- Validity bounds of a Python `datetime` date (`MINYEAR = 1`,
`MAXYEAR = 9999`, months 1–12, days 1–31). -/
def Date.Valid (d : Date) : Prop :=
  1 ≤ d.year ∧ d.year ≤ 9999 ∧ 1 ≤ d.month ∧ d.month ≤ 12 ∧
    1 ≤ d.day ∧ d.day ≤ 31

instance (d : Date) : Decidable d.Valid := by
  unfold Date.Valid; infer_instance

/-- Rendering of `dt.strftime("%Y_%m_%d")`: four-digit zero-padded
year, two-digit month and day, joined by underscores. -/
def dateStr (d : Date) : String :=
  padStr 4 d.year ++ "_" ++ padStr 2 d.month ++ "_" ++ padStr 2 d.day

/-! ## The Sequence Namer (`generate_name_with_counter`) -/

/-- The `date_counters` table: `defaultdict(int)`, a total map from
date strings to counts, absent keys reading as `0`. -/
def Table : Type := String → Nat

/-- The table at the start of a run (`defaultdict(int)` fresh). -/
def emptyTable : Table := fun _ => 0

/-- Model of `generate_name_with_counter(dt, ext)`: renders the date,
increments the shared counter for that date, and returns the updated
table with the filename `f"{date_str}_{counter:03d}{ext}"`. -/
def generate_name_with_counter (t : Table) (dt : DateTime) (ext : String) :
    Table × String :=
  let date_str := dateStr dt.date
  let t' : Table := fun k => if k = date_str then t k + 1 else t k
  let counter := t' date_str
  (t', date_str ++ "_" ++ padStr 3 counter ++ ext)

/-! ### Properties of the decimal rendering -/

theorem natDigitsAux_irrel : ∀ (fuel n : Nat), n < fuel →
    natDigitsAux fuel n = natDigitsAux (n + 1) n := by
  intro fuel
  induction fuel using Nat.strong_induction_on with
  | _ fuel ih =>
    intro n hn
    match fuel, hn with
    | f + 1, hn =>
      by_cases h : n < 10
      · simp [natDigitsAux, h]
      · have h10 : 10 ≤ n := Nat.not_lt.mp h
        have hdivn : n / 10 < n := Nat.div_lt_self (by omega) (by omega)
        simp only [natDigitsAux, if_neg h]
        rw [ih f (by omega) (n / 10) (by omega),
          ih n (by omega) (n / 10) hdivn]

theorem natDigits_of_lt {n : Nat} (h : n < 10) : natDigits n = [digitChar n] := by
  simp [natDigits, natDigitsAux, h]

theorem natDigits_of_ge {n : Nat} (h : 10 ≤ n) :
    natDigits n = natDigits (n / 10) ++ [digitChar (n % 10)] := by
  have hdivn : n / 10 < n := Nat.div_lt_self (by omega) (by omega)
  rw [natDigits, natDigitsAux, if_neg (Nat.not_lt.mpr h),
    natDigitsAux_irrel n (n / 10) hdivn]
  rfl

theorem digitChar_toNat {d : Nat} (h : d < 10) : (digitChar d).toNat = 48 + d := by
  interval_cases d <;> decide

theorem digitChar_isDigit {d : Nat} (h : d < 10) : (digitChar d).isDigit = true := by
  interval_cases d <;> decide

theorem natDigits_all_digit : ∀ n, ∀ c ∈ natDigits n, c.isDigit = true := by
  intro n
  induction n using Nat.strong_induction_on with
  | _ n ih =>
    by_cases h : n < 10
    · rw [natDigits_of_lt h]
      intro c hc
      simp at hc
      subst hc
      exact digitChar_isDigit h
    · rw [natDigits_of_ge (Nat.not_lt.mp h)]
      intro c hc
      rcases List.mem_append.mp hc with h1 | h2
      · exact ih (n / 10) (Nat.div_lt_self (by omega) (by omega)) c h1
      · simp at h2
        subst h2
        exact digitChar_isDigit (Nat.mod_lt _ (by omega))

theorem natDigits_ne_nil (n : Nat) : natDigits n ≠ [] := by
  by_cases h : n < 10
  · rw [natDigits_of_lt h]; simp
  · rw [natDigits_of_ge (Nat.not_lt.mp h)]; simp

theorem digitsVal_concat (l : List Char) (c : Char) :
    digitsVal (l ++ [c]) = 10 * digitsVal l + (c.toNat - 48) := by
  simp [digitsVal, List.foldl_append]

theorem digitsVal_natDigits : ∀ n, digitsVal (natDigits n) = n := by
  intro n
  induction n using Nat.strong_induction_on with
  | _ n ih =>
    by_cases h : n < 10
    · rw [natDigits_of_lt h]
      simp [digitsVal, digitChar_toNat h]
    · rw [natDigits_of_ge (Nat.not_lt.mp h), digitsVal_concat,
        ih (n / 10) (Nat.div_lt_self (by omega) (by omega)),
        digitChar_toNat (Nat.mod_lt _ (by omega))]
      omega

theorem digitsVal_cons_zero (l : List Char) : digitsVal ('0' :: l) = digitsVal l := by
  simp [digitsVal]

theorem digitsVal_replicate_zero (k : Nat) (l : List Char) :
    digitsVal (List.replicate k '0' ++ l) = digitsVal l := by
  induction k with
  | zero => simp
  | succ k ih => simpa [List.replicate_succ, digitsVal_cons_zero] using ih

theorem digitsVal_padList (w n : Nat) : digitsVal (padList w n) = n := by
  rw [padList, digitsVal_replicate_zero, digitsVal_natDigits]

theorem padList_inj {w n m : Nat} (h : padList w n = padList w m) : n = m := by
  have := digitsVal_padList w n
  rw [h, digitsVal_padList] at this
  omega

theorem padList_all_digit (w n : Nat) : ∀ c ∈ padList w n, c.isDigit = true := by
  intro c hc
  rcases List.mem_append.mp hc with h1 | h2
  · rw [List.eq_of_mem_replicate h1]; decide
  · exact natDigits_all_digit n c h2

theorem natDigits_length_le {n k : Nat} (hk : 1 ≤ k) (h : n < 10 ^ k) :
    (natDigits n).length ≤ k := by
  induction k generalizing n with
  | zero => omega
  | succ k ih =>
    by_cases hn : n < 10
    · rw [natDigits_of_lt hn, List.length_singleton]; omega
    · have hk2 : 1 ≤ k := by
        rcases Nat.eq_zero_or_pos k with h0 | h1
        · subst h0; simp at h; omega
        · exact h1
      rw [natDigits_of_ge (Nat.not_lt.mp hn)]
      have hdiv : n / 10 < 10 ^ k := by
        rw [Nat.div_lt_iff_lt_mul (by omega)]
        calc n < 10 ^ (k + 1) := h
          _ = 10 ^ k * 10 := by ring
      have hlen := ih hk2 hdiv
      rw [List.length_append, List.length_singleton]
      omega

theorem natDigits_length_ge : ∀ {n k : Nat}, 10 ^ k ≤ n → k + 1 ≤ (natDigits n).length := by
  intro n
  induction n using Nat.strong_induction_on with
  | _ n ih =>
    intro k h
    by_cases hn : n < 10
    · have hk : k = 0 := by
        by_contra hk0
        have : 10 ≤ 10 ^ k := by
          calc 10 = 10 ^ 1 := by ring
            _ ≤ 10 ^ k := Nat.pow_le_pow_right (by omega) (by omega)
        omega
      subst hk
      rw [natDigits_of_lt hn]
      simp
    · rw [natDigits_of_ge (Nat.not_lt.mp hn), List.length_append,
        List.length_singleton]
      cases k with
      | zero => omega
      | succ j =>
        have hdiv : 10 ^ j ≤ n / 10 := by
          rw [Nat.le_div_iff_mul_le (by omega)]
          calc 10 ^ j * 10 = 10 ^ (j + 1) := by ring
            _ ≤ n := h
        have := ih (n / 10) (Nat.div_lt_self (by omega) (by omega)) hdiv
        omega

theorem padList_length (w n : Nat) :
    (padList w n).length = max w (natDigits n).length := by
  simp [padList]
  omega

theorem padList_length_of_lt {w n : Nat} (hw : 1 ≤ w) (h : n < 10 ^ w) :
    (padList w n).length = w := by
  rw [padList_length]
  have := natDigits_length_le hw h
  omega

/-! ### Splitting digit runs from extensions -/

theorem takeWhile_append_of_all (p : Char → Bool) (l₁ l₂ : List Char)
    (h1 : ∀ c ∈ l₁, p c = true)
    (h2 : ∀ c, l₂.head? = some c → p c = false) :
    (l₁ ++ l₂).takeWhile p = l₁ := by
  induction l₁ with
  | nil =>
    simp only [List.nil_append]
    cases l₂ with
    | nil => simp
    | cons c m =>
      rw [List.takeWhile_cons, h2 c rfl]
      simp
  | cons a l ih =>
    have ha : p a = true := h1 a (by simp)
    rw [List.cons_append, List.takeWhile_cons, ha]
    simp only [if_true]
    rw [ih fun c hc => h1 c (by simp [hc])]

theorem padList_append_inj {w n m : Nat} {e₁ e₂ : List Char}
    (hne₁ : ∀ c, e₁.head? = some c → c.isDigit = false)
    (hne₂ : ∀ c, e₂.head? = some c → c.isDigit = false)
    (h : padList w n ++ e₁ = padList w m ++ e₂) : n = m ∧ e₁ = e₂ := by
  have ht : padList w n = padList w m := by
    have h1 := takeWhile_append_of_all Char.isDigit (padList w n) e₁
      (padList_all_digit w n) hne₁
    have h2 := takeWhile_append_of_all Char.isDigit (padList w m) e₂
      (padList_all_digit w m) hne₂
    rw [← h1, ← h2, h]
  refine ⟨padList_inj ht, ?_⟩
  rw [ht] at h
  exact List.append_cancel_left h

/-- One Namer invocation: the datetime handed over by the Resolver and
the extension chosen by the caller. -/
structure Call where
  dt : DateTime
  ext : String
deriving DecidableEq, Repr

/-- Date-string key of a call, as used by the counter table. -/
def Call.key (c : Call) : String := dateStr c.dt.date

/-- A run of Namer invocations threading the shared table, returning
the final table and the generated filenames in order. -/
def runNamer (t : Table) : List Call → Table × List String
  | [] => (t, [])
  | c :: cs =>
    let r := generate_name_with_counter t c.dt c.ext
    let rest := runNamer r.1 cs
    (rest.1, r.2 :: rest.2)

/-- Number of calls in a list whose date renders to the key `k`. -/
def countKey (k : String) (cs : List Call) : Nat :=
  (cs.filter (fun c => c.key = k)).length

/-! ### Structure of rendered dates and filenames -/

theorem padLen4 {n : Nat} (h : n ≤ 9999) : (padList 4 n).length = 4 := by
  have h4 : (10 : Nat) ^ 4 = 10000 := by norm_num
  exact padList_length_of_lt (by omega) (by omega)

theorem padLen2 {n : Nat} (h : n ≤ 99) : (padList 2 n).length = 2 := by
  have h2 : (10 : Nat) ^ 2 = 100 := by norm_num
  exact padList_length_of_lt (by omega) (by omega)

theorem dateStr_data (d : Date) :
    (dateStr d).data =
      padList 4 d.year ++ '_' :: (padList 2 d.month ++ '_' :: padList 2 d.day) := by
  simp [dateStr, padStr, String.data_append]

theorem dateStr_data_length {d : Date} (h : d.Valid) : (dateStr d).data.length = 10 := by
  obtain ⟨h1, h2, h3, h4, h5, h6⟩ := h
  rw [dateStr_data]
  simp only [List.length_append, List.length_cons]
  rw [padLen4 (by omega), padLen2 (by omega : d.month ≤ 99),
    padLen2 (by omega : d.day ≤ 99)]

theorem dateStr_append_inj {d₁ d₂ : Date} {r₁ r₂ : List Char}
    (h₁ : d₁.Valid) (h₂ : d₂.Valid)
    (h : (dateStr d₁).data ++ r₁ = (dateStr d₂).data ++ r₂) :
    d₁ = d₂ ∧ r₁ = r₂ := by
  have hl : (dateStr d₁).data.length = (dateStr d₂).data.length := by
    rw [dateStr_data_length h₁, dateStr_data_length h₂]
  obtain ⟨hd, hr⟩ := List.append_inj h hl
  refine ⟨?_, hr⟩
  obtain ⟨hy1, hy2, hm1, hm2, hd1, hd2⟩ := h₁
  obtain ⟨hy1', hy2', hm1', hm2', hd1', hd2'⟩ := h₂
  rw [dateStr_data, dateStr_data] at hd
  obtain ⟨hy, hrest⟩ := List.append_inj hd
    (by rw [padLen4 (by omega), padLen4 (by omega)])
  have hrest' := List.tail_eq_of_cons_eq hrest
  obtain ⟨hm, hrest2⟩ := List.append_inj hrest'
    (by rw [padLen2 (by omega : d₁.month ≤ 99), padLen2 (by omega : d₂.month ≤ 99)])
  have hdd := List.tail_eq_of_cons_eq hrest2
  obtain ⟨y1, m1, dd1⟩ := d₁
  obtain ⟨y2, m2, dd2⟩ := d₂
  simp only at hy hm hdd
  rw [Date.mk.injEq]
  exact ⟨padList_inj hy, padList_inj hm, padList_inj hdd⟩

/-! ### Equations of the Namer -/

theorem runNamer_nil (t : Table) : runNamer t [] = (t, []) := rfl

theorem runNamer_cons (t : Table) (c : Call) (cs : List Call) :
    runNamer t (c :: cs) =
      ((runNamer ((generate_name_with_counter t c.dt c.ext).1) cs).1,
       (generate_name_with_counter t c.dt c.ext).2 ::
         (runNamer ((generate_name_with_counter t c.dt c.ext).1) cs).2) := rfl

theorem generate_fst (t : Table) (dt : DateTime) (ext : String) :
    (generate_name_with_counter t dt ext).1 =
      fun k => if k = dateStr dt.date then t k + 1 else t k := rfl

theorem generate_snd (t : Table) (dt : DateTime) (ext : String) :
    (generate_name_with_counter t dt ext).2 =
      dateStr dt.date ++ "_" ++ padStr 3 (t (dateStr dt.date) + 1) ++ ext := by
  simp [generate_name_with_counter]

theorem countKey_nil (k : String) : countKey k [] = 0 := rfl

theorem countKey_cons (k : String) (c : Call) (cs : List Call) :
    countKey k (c :: cs) = (if c.key = k then 1 else 0) + countKey k cs := by
  by_cases h : c.key = k <;> simp [countKey, List.filter_cons, h] <;> omega

theorem countKey_append (k : String) (l₁ l₂ : List Call) :
    countKey k (l₁ ++ l₂) = countKey k l₁ + countKey k l₂ := by
  simp [countKey, List.filter_append]

theorem countKey_take_mono (k : String) (cs : List Call) {a b : Nat} (h : a ≤ b) :
    countKey k (cs.take a) ≤ countKey k (cs.take b) := by
  have hsub : List.Sublist (cs.take a) (cs.take b) := List.take_sublist_take_left cs h
  exact (hsub.filter _).length_le

theorem countKey_take_succ_of_key {cs : List Call} {j : Nat} {c : Call}
    (h : cs[j]? = some c) {k : String} (hk : c.key = k) :
    countKey k (cs.take (j + 1)) = countKey k (cs.take j) + 1 := by
  rw [List.take_succ, h, countKey_append]
  simp [countKey, List.filter_cons, hk]

/-- Characterization of the names produced by a Namer run: the call at
position `i` receives, for its own date key, the counter equal to the
initial table value plus the number of same-key calls so far. -/
theorem runNamer_get (cs : List Call) : ∀ (t : Table) (i : Nat) (c : Call),
    cs[i]? = some c →
    ((runNamer t cs).2)[i]? =
      some (dateStr c.dt.date ++ "_" ++
        padStr 3 (t c.key + countKey c.key (cs.take (i + 1))) ++ c.ext) := by
  induction cs with
  | nil => intro t i c h; simp at h
  | cons c₀ rest ih =>
    intro t i c h
    cases i with
    | zero =>
      rw [List.getElem?_cons_zero] at h
      injection h with h
      subst h
      rw [runNamer_cons, List.getElem?_cons_zero, generate_snd]
      rw [List.take_succ_cons, List.take_zero, countKey_cons, countKey_nil]
      simp [Call.key]
    | succ i =>
      rw [List.getElem?_cons_succ] at h
      rw [runNamer_cons, List.getElem?_cons_succ, generate_fst]
      rw [ih _ i c h]
      rw [List.take_succ_cons, countKey_cons]
      have harith :
          (if c.key = dateStr c₀.dt.date then t c.key + 1 else t c.key) +
              countKey c.key (rest.take (i + 1)) =
            t c.key + ((if c₀.key = c.key then 1 else 0) +
              countKey c.key (rest.take (i + 1))) := by
        by_cases hk : c.key = dateStr c₀.dt.date
        · rw [if_pos hk, if_pos (by rw [Call.key, ← hk])]
          omega
        · rw [if_neg hk, if_neg (by rw [Call.key]; exact fun hh => hk hh.symm)]
          omega
      rw [harith]

theorem runNamer_length (cs : List Call) : ∀ t : Table,
    (runNamer t cs).2.length = cs.length := by
  induction cs with
  | nil => intro t; rfl
  | cons c rest ih =>
    intro t
    rw [runNamer_cons]
    simp [ih]

/-- Counters for the same date key strictly grow along the run. -/
theorem counters_strict_mono {cs : List Call} {i j : Nat} {ci cj : Call}
    (hij : i < j) (hi : cs[i]? = some ci) (hj : cs[j]? = some cj)
    (hkey : ci.key = cj.key) :
    countKey ci.key (cs.take (i + 1)) < countKey cj.key (cs.take (j + 1)) := by
  have h1 : countKey ci.key (cs.take (i + 1)) ≤ countKey ci.key (cs.take j) :=
    countKey_take_mono _ _ (by omega)
  have h2 : countKey ci.key (cs.take (j + 1)) = countKey ci.key (cs.take j) + 1 :=
    countKey_take_succ_of_key hj hkey.symm
  rw [← hkey]
  omega

/-- Variant of `counters_strict_mono` with both counters keyed alike. -/
theorem counters_strict_mono_same {cs : List Call} {i j : Nat} {ci cj : Call}
    (hij : i < j) (hi : cs[i]? = some ci) (hj : cs[j]? = some cj)
    (hkey : ci.key = cj.key) :
    countKey ci.key (cs.take (i + 1)) < countKey ci.key (cs.take (j + 1)) := by
  have := counters_strict_mono hij hi hj hkey
  rw [← hkey] at this
  exact this

/-- Condition on an extension string: its first character is not a
digit (extensions produced by `os.path.splitext` start with a dot). -/
def extOK (e : String) : Bool :=
  match e.data.head? with
  | some ch => !ch.isDigit
  | none => true

theorem extOK_spec {e : String} (h : extOK e = true) :
    ∀ ch, e.data.head? = some ch → ch.isDigit = false := by
  intro ch hch
  unfold extOK at h
  rw [hch] at h
  simpa using h

/-- Any two distinct Namer invocations in one run from the empty table
produce distinct filenames, provided dates are valid and extensions
start with a non-digit. -/
theorem runNamer_names_ne {cs : List Call}
    (hval : ∀ c ∈ cs, c.dt.date.Valid)
    (hext : ∀ c ∈ cs, extOK c.ext = true)
    {i j : Nat} {ci cj : Call}
    (hi : cs[i]? = some ci) (hj : cs[j]? = some cj) (hij : i < j) :
    ((runNamer emptyTable cs).2)[i]? ≠ ((runNamer emptyTable cs).2)[j]? := by
  intro heq
  rw [runNamer_get cs emptyTable i ci hi, runNamer_get cs emptyTable j cj hj] at heq
  injection heq with heq
  rw [String.ext_iff] at heq
  simp only [String.data_append] at heq
  have hshape : ∀ (c : Call) (n : Nat),
      ((dateStr c.dt.date).data ++ "_".data) ++ (padStr 3 n).data ++ c.ext.data =
        (dateStr c.dt.date).data ++ ('_' :: (padList 3 n ++ c.ext.data)) := by
    intro c n
    show ((dateStr c.dt.date).data ++ ['_']) ++ padList 3 n ++ c.ext.data = _
    simp
  rw [hshape, hshape] at heq
  have hvi := hval ci (List.getElem?_mem hi)
  have hvj := hval cj (List.getElem?_mem hj)
  obtain ⟨hdate, hrest⟩ := dateStr_append_inj hvi hvj heq
  have hkey : ci.key = cj.key := by rw [Call.key, Call.key, hdate]
  have hrest' := List.tail_eq_of_cons_eq hrest
  obtain ⟨hcnt, -⟩ := padList_append_inj
    (extOK_spec (hext ci (List.getElem?_mem hi)))
    (extOK_spec (hext cj (List.getElem?_mem hj))) hrest'
  have hlt := counters_strict_mono_same hij hi hj hkey
  simp only [emptyTable] at hcnt
  rw [← hkey] at hcnt
  omega

/-! ## The Timestamp Resolver (`get_photo_datetime`, `get_video_datetime`)

External collaborators are explicit inputs: the EXIF reader's outcome,
the `ffprobe` invocation's outcome, and the standard-library parsers
`strptime` (fixed format `%Y:%m:%d %H:%M:%S`) and `fromisoformat`. -/

/-- Warnings printed by the pipeline, identified by which `print`
statement emitted them and which file/value they name. -/
inductive Warning where
  | invalidExif (path : String)
  | generalExif (path : String)
  | videoParse (raw : String)
  | videoProbe (path : String) (msg : String)
deriving DecidableEq, Repr

/-- Outcome of `piexif.load(path)` followed by the
`exif_dict["0th"].get(piexif.ImageIFD.DateTime)` lookup: either the
load succeeded with an optional tag value, or it raised the recognized
invalid-metadata error (the class the source's first handler names,
`piexif.Invalidbox`), or it raised some other exception. -/
inductive ExifLoad where
  | ok (tag : Option String)
  | invalidError
  | otherError
deriving DecidableEq, Repr

/-- Model of `get_photo_datetime(path)`: EXIF capture time if present
and parseable, else the mtime fallback, together with the warnings
printed.  The first handler catches the recognized invalid-metadata
error, the second any other exception (including the `strptime`
parse failure). -/
def get_photo_datetime (path : String) (mtime : DateTime) (exif : ExifLoad)
    (strptime : String → Option DateTime) : DateTime × List Warning :=
  match exif with
  | .ok tag =>
    match tag with
    | some s =>
      if s = "" then (mtime, [])
      else
        match strptime s with
        | some dt => (dt, [])
        | none => (mtime, [.generalExif path])
    | none => (mtime, [])
  | .invalidError => (mtime, [.invalidExif path])
  | .otherError => (mtime, [.generalExif path])

/-- Outcome of the `ffprobe` creation-time invocation
(`subprocess.check_output` + `decode` + `strip`): the stripped output
string, a `CalledProcessError`, or some other exception. -/
inductive ProbeResult where
  | ok (out : String)
  | calledProcessError
  | otherError (msg : String)
deriving DecidableEq, Repr

/-- Model of Python `str.replace(c, r)` for a one-character pattern:
every occurrence of `c` is substituted by `r`. -/
def replaceChar (s : String) (c : Char) (r : String) : String :=
  String.mk (List.flatten (s.data.map fun a => if a = c then r.data else [a]))

/-- Model of `get_video_datetime(path)`: the container creation-time
tag parsed as ISO-8601 with a `Z`→`+00:00` substitution if available,
else the mtime fallback, together with the warnings printed. -/
def get_video_datetime (path : String) (mtime : DateTime) (probe : ProbeResult)
    (fromisoformat : String → Option DateTime) : DateTime × List Warning :=
  match probe with
  | .ok s =>
    if s = "" then (mtime, [])
    else
      match fromisoformat (replaceChar s 'Z' "+00:00") with
      | some dt => (dt, [])
      | none => (mtime, [.videoParse s])
  | .calledProcessError => (mtime, [])
  | .otherError m => (mtime, [.videoProbe path m])

/-! ## Photo Copier and Video Converter -/

/-- Model of Python `str.lower()` (ASCII range, the one exercised by
file extensions). -/
def strToLower (s : String) : String :=
  String.mk (s.data.map Char.toLower)

/-- Model of `os.path.splitext(p)[1]`: the final extension of the last
path component, empty when the basename has no dot after its leading
dots. -/
def splitextExt (path : String) : String :=
  let base := (path.data.reverse.takeWhile (fun c => c ≠ '/')).reverse
  let stripped := base.dropWhile (fun c => c = '.')
  let revTail := stripped.reverse.takeWhile (fun c => c ≠ '.')
  if revTail.length = stripped.length then ""
  else String.mk ('.' :: revTail.reverse)

/-- Model of `os.path.join(a, b)` for a relative second component. -/
def ospath_join (a b : String) : String := a ++ "/" ++ b

/-- Outcome of `copy_photo`: the destination path, or the exception
raised by `shutil.copy2` propagating to the Dispatcher. -/
inductive CopyResult where
  | done (dst : String)
  | copyRaise (msg : String)
deriving DecidableEq, Repr

/-- Model of `copy_photo(src, dst_dir)`: resolve the timestamp,
generate the counter name (mutating the table), then copy.  The
`copyExc` input is the outcome of the external `shutil.copy2` call. -/
def copy_photo (src dst_dir : String) (t : Table) (mtime : DateTime)
    (exif : ExifLoad) (strptime : String → Option DateTime)
    (copyExc : Option String) : Table × List Warning × CopyResult :=
  let r := get_photo_datetime src mtime exif strptime
  let ext := strToLower (splitextExt src)
  let g := generate_name_with_counter t r.1 ext
  let dst_path := ospath_join dst_dir g.2
  match copyExc with
  | none => (g.1, r.2, .done dst_path)
  | some m => (g.1, r.2, .copyRaise m)

/-- Outcome of the audio-codec `ffprobe` in `convert_video`: only
`CalledProcessError` is caught there (yielding the `"unknown"`
sentinel); any other exception propagates. -/
inductive AudioProbe where
  | ok (codec : String)
  | calledProcessError
  | otherRaise (msg : String)
deriving DecidableEq, Repr

/-- The fixed part of the `ffmpeg` command built by `convert_video`. -/
def ffmpegBaseArgs (src : String) : List String :=
  ["ffmpeg", "-i", src, "-map_metadata", "0", "-c:v", "copy", "-movflags", "+faststart"]

/-- The audio part of the `ffmpeg` command: re-encode to AAC at 192k
unless the probed codec is already `aac`, in which case stream-copy. -/
def audioArgs (audio_codec : String) : List String :=
  if audio_codec ≠ "aac" then ["-c:a", "aac", "-b:a", "192k"] else ["-c:a", "copy"]

/-- Outcome of `convert_video`: success, or the `CalledProcessError`
raised by `subprocess.run(cmd, check=True)`, or a non-`CalledProcessError`
exception escaping the audio probe; the built command is recorded
whenever the `ffmpeg` invocation is reached. -/
inductive ConvertResult where
  | done (dst : String) (cmd : List String)
  | ffmpegError (dst : String) (cmd : List String)
  | probeRaise (msg : String)
deriving DecidableEq, Repr

/-- Model of `convert_video(src, dst_dir)`: resolve the timestamp,
generate the counter name with fixed extension `.mp4` (mutating the
table), probe the audio codec, build the `ffmpeg` command, run it. -/
def convert_video (src dst_dir : String) (t : Table) (mtime : DateTime)
    (probe : ProbeResult) (fromisoformat : String → Option DateTime)
    (audioProbe : AudioProbe) (ffmpegOk : Bool) :
    Table × List Warning × ConvertResult :=
  let r := get_video_datetime src mtime probe fromisoformat
  let ext := ".mp4"
  let g := generate_name_with_counter t r.1 ext
  let dst_path := ospath_join dst_dir g.2
  match audioProbe with
  | .otherRaise m => (g.1, r.2, .probeRaise m)
  | ap =>
    let audio_codec := match ap with
      | .ok c => c
      | _ => "unknown"
    let cmd := ffmpegBaseArgs src ++ audioArgs audio_codec ++ [dst_path]
    if ffmpegOk then (g.1, r.2, .done dst_path cmd)
    else (g.1, r.2, .ffmpegError dst_path cmd)

/-! ## The Dispatcher (`process_file`) and the Tree Walker loop -/

/-- The fixed photo extension set. -/
def PHOTO_EXTENSIONS : List String := [".jpg", ".jpeg", ".png"]

/-- The fixed video extension set. -/
def VIDEO_EXTENSIONS : List String :=
  [".mp4", ".mkv", ".avi", ".mov", ".wmv", ".flv", ".webm", ".mpg", ".mpeg",
   ".m4v", ".3gp", ".3g2", ".ts", ".mts", ".m2ts", ".vob"]

/-- Per-file outcome as logged by the Dispatcher: the three `except`
branches are distinguished exactly as the three log messages are. -/
inductive FileOutcome where
  | copied (dst : String)
  | converted (dst : String)
  | photoFail (path : String) (msg : String)
  | videoFfmpegFail (path : String)
  | videoFail (path : String) (msg : String)
  | skipped
deriving DecidableEq, Repr

/-- The external world seen while processing one file: metadata reader
outcomes, parser behaviours, and copy/encode outcomes. -/
structure FileEnv where
  mtime : DateTime
  exif : ExifLoad
  strptime : String → Option DateTime
  probe : ProbeResult
  fromisoformat : String → Option DateTime
  audioProbe : AudioProbe
  copyExc : Option String
  ffmpegOk : Bool

/-- Model of `process_file(path, output_dir)`: classify by lower-cased
extension against the two fixed sets, gate by `MODE` (modelled as the
`mode` argument, the module-level configuration constant), route to
the Copier or Converter, and catch every per-file failure. -/
def process_file (path output_dir mode : String) (t : Table) (env : FileEnv) :
    Table × List Warning × FileOutcome :=
  let ext := strToLower (splitextExt path)
  if ext ∈ PHOTO_EXTENSIONS ∧ (mode = "photo" ∨ mode = "both") then
    let r := copy_photo path output_dir t env.mtime env.exif env.strptime env.copyExc
    match r.2.2 with
    | .done dst => (r.1, r.2.1, .copied dst)
    | .copyRaise m => (r.1, r.2.1, .photoFail path m)
  else if ext ∈ VIDEO_EXTENSIONS ∧ (mode = "video" ∨ mode = "both") then
    let r := convert_video path output_dir t env.mtime env.probe env.fromisoformat
      env.audioProbe env.ffmpegOk
    match r.2.2 with
    | .done dst _ => (r.1, r.2.1, .converted dst)
    | .ffmpegError _ _ => (r.1, r.2.1, .videoFfmpegFail path)
    | .probeRaise m => (r.1, r.2.1, .videoFail path m)
  else (t, [], .skipped)

/-- Model of the per-file loop of `recurse_and_process`: every file is
handed to `process_file` in order, threading the shared counter table. -/
def processAll (output_dir mode : String) :
    Table → List (String × FileEnv) → Table × List FileOutcome
  | t, [] => (t, [])
  | t, (p, env) :: rest =>
    let r := process_file p output_dir mode t env
    let rr := processAll output_dir mode r.1 rest
    (rr.1, r.2.2 :: rr.2)

/-! ## Concrete inputs used by the witnesses -/

/-- Demo datetime 2023-05-10 01:02:03. -/
def wDT : DateTime := ⟨2023, 5, 10, 1, 2, 3⟩

/-- Demo datetime 2023-05-11 00:00:00. -/
def wDT2 : DateTime := ⟨2023, 5, 11, 0, 0, 0⟩

/-- Demo mtime 2022-01-01 00:00:00. -/
def mt0 : DateTime := ⟨2022, 1, 1, 0, 0, 0⟩

/-- Demo Namer run: two calls on 2023-05-10 around one on 2023-05-11. -/
def wCalls : List Call := [⟨wDT, ".jpg"⟩, ⟨wDT2, ".jpg"⟩, ⟨wDT, ".png"⟩]

/-- Demo EXIF capture-time string in the fixed format. -/
def exifStr : String := "2021:06:15 08:00:00"

/-- The datetime the demo EXIF string denotes. -/
def dtExif : DateTime := ⟨2021, 6, 15, 8, 0, 0⟩

/-- Demo `strptime` behaviour: parses exactly the demo EXIF string. -/
def strp0 : String → Option DateTime :=
  fun x => if x = exifStr then some dtExif else none

/-- Demo `ffprobe` creation-time output. -/
def isoRaw : String := "2023-12-14T10:30:00.000000Z"

/-- The demo output after the `Z`→`+00:00` substitution. -/
def isoConv : String := "2023-12-14T10:30:00.000000+00:00"

/-- The datetime the demo ISO string denotes. -/
def dtIso : DateTime := ⟨2023, 12, 14, 10, 30, 0⟩

/-- Demo `fromisoformat` behaviour: parses exactly the substituted
demo string. -/
def iso0 : String → Option DateTime :=
  fun x => if x = isoConv then some dtIso else none

/-! ## The claims -/

/-- C1: every Sequence Namer call increments the table entry for its
datetime's date by exactly one (taking an absent entry from 0 to 1)
and returns `{date:%Y_%m_%d}_{counter:03d}{ext}`; in a run from the
empty table the call at position `i` receives as counter the number of
same-date calls among the first `i+1`, so the k-th call for a date
gets counter k regardless of interleaving; (date, counter) pairs are
pairwise distinct across the run, and all returned filenames are
pairwise distinct (for valid dates and dot-led extensions). -/
theorem C1_seq_namer :
    (∀ (t : Table) (dt : DateTime) (ext : String),
      (generate_name_with_counter t dt ext).1 (dateStr dt.date) =
          t (dateStr dt.date) + 1 ∧
      (∀ k, k ≠ dateStr dt.date →
          (generate_name_with_counter t dt ext).1 k = t k) ∧
      (generate_name_with_counter t dt ext).2 =
          dateStr dt.date ++ "_" ++ padStr 3 (t (dateStr dt.date) + 1) ++ ext) ∧
    (∀ (cs : List Call) (i : Nat) (c : Call), cs[i]? = some c →
      ((runNamer emptyTable cs).2)[i]? =
        some (dateStr c.dt.date ++ "_" ++
          padStr 3 (countKey c.key (cs.take (i + 1))) ++ c.ext)) ∧
    (∀ (cs : List Call) (i j : Nat) (ci cj : Call), i < j →
      cs[i]? = some ci → cs[j]? = some cj → ci.key = cj.key →
      countKey ci.key (cs.take (i + 1)) ≠ countKey cj.key (cs.take (j + 1))) ∧
    (∀ (cs : List Call), (∀ c ∈ cs, c.dt.date.Valid) →
      (∀ c ∈ cs, extOK c.ext = true) →
      ∀ (i j : Nat) (ci cj : Call), cs[i]? = some ci → cs[j]? = some cj →
      i < j →
      ((runNamer emptyTable cs).2)[i]? ≠ ((runNamer emptyTable cs).2)[j]?) := by
  refine ⟨fun t dt ext => ⟨?_, ?_, ?_⟩, fun cs i c h => ?_, ?_, ?_⟩
  · rw [generate_fst]
    simp
  · intro k hk
    rw [generate_fst]
    simp [hk]
  · exact generate_snd t dt ext
  · rw [runNamer_get cs emptyTable i c h]
    simp [emptyTable, Call.key]
  · intro cs i j ci cj hij hi hj hkey
    exact Nat.ne_of_lt (counters_strict_mono hij hi hj hkey)
  · intro cs hval hext i j ci cj hi hj hij
    exact runNamer_names_ne hval hext hi hj hij

/-- Witness for C1 on the demo run: concrete names and distinctness
obtained from the theorem. -/
theorem C1_seq_namer_witness :
    ((runNamer emptyTable wCalls).2)[0]? = some "2023_05_10_001.jpg" ∧
    ((runNamer emptyTable wCalls).2)[2]? = some "2023_05_10_002.png" ∧
    ((runNamer emptyTable wCalls).2)[0]? ≠ ((runNamer emptyTable wCalls).2)[2]? := by
  refine ⟨?_, ?_, ?_⟩
  · exact (C1_seq_namer.2.1 wCalls 0 ⟨wDT, ".jpg"⟩ (by decide)).trans (by decide)
  · exact (C1_seq_namer.2.1 wCalls 2 ⟨wDT, ".png"⟩ (by decide)).trans (by decide)
  · exact C1_seq_namer.2.2.2 wCalls (by decide) (by decide) 0 2
      ⟨wDT, ".jpg"⟩ ⟨wDT, ".png"⟩ (by decide) (by decide) (by omega)

/-- C2: the Timestamp Resolver is total — for photos and videos alike
it returns a datetime that is either parsed from embedded metadata or
the mtime fallback; every error branch of the model yields the
fallback and no case is left unhandled. -/
theorem C2_resolver_total :
    (∀ (path : String) (mtime : DateTime) (exif : ExifLoad)
        (strptime : String → Option DateTime),
      (get_photo_datetime path mtime exif strptime).1 = mtime ∨
      ∃ s dt, exif = ExifLoad.ok (some s) ∧ strptime s = some dt ∧
        (get_photo_datetime path mtime exif strptime).1 = dt) ∧
    (∀ (path : String) (mtime : DateTime) (probe : ProbeResult)
        (iso : String → Option DateTime),
      (get_video_datetime path mtime probe iso).1 = mtime ∨
      ∃ s dt, probe = ProbeResult.ok s ∧
        iso (replaceChar s 'Z' "+00:00") = some dt ∧
        (get_video_datetime path mtime probe iso).1 = dt) := by
  constructor
  · intro path mtime exif strptime
    match exif with
    | .ok (some s) =>
      by_cases hs : s = ""
      · left; simp [get_photo_datetime, hs]
      · match hp : strptime s with
        | some dt =>
          right
          exact ⟨s, dt, rfl, hp, by simp [get_photo_datetime, hs, hp]⟩
        | none => left; simp [get_photo_datetime, hs, hp]
    | .ok none => left; rfl
    | .invalidError => left; rfl
    | .otherError => left; rfl
  · intro path mtime probe iso
    match probe with
    | .ok s =>
      by_cases hs : s = ""
      · left; simp [get_video_datetime, hs]
      · match hp : iso (replaceChar s 'Z' "+00:00") with
        | some dt =>
          right
          exact ⟨s, dt, rfl, hp, by simp [get_video_datetime, hs, hp]⟩
        | none => left; simp [get_video_datetime, hs, hp]
    | .calledProcessError => left; rfl
    | .otherError m => left; rfl

/-- C3 counterexample: a photo whose EXIF loads without a capture-time
tag (metadata absent) resolves to the mtime with zero warnings — not
the exactly-one warning the claim asserts for every absent-metadata
photo. -/
theorem C3_absent_metadata_cex :
    get_photo_datetime "a.jpg" mt0 (ExifLoad.ok none) (fun _ => none) =
      (mt0, []) ∧
    (get_photo_datetime "a.jpg" mt0 (ExifLoad.ok none) (fun _ => none)).2.length
      ≠ 1 := by
  exact ⟨rfl, by decide⟩

/-- C3 amended: when reading EXIF raises (the recognized invalid-
metadata error or any other exception) or the present tag fails to
parse, the Resolver returns the mtime and logs exactly one warning
identifying the file; when EXIF loads but the capture-time tag is
absent or empty, the Resolver returns the mtime with no warning. -/
theorem C3_photo_fallback_warnings (path : String) (mtime : DateTime)
    (strptime : String → Option DateTime) (s : String) :
    get_photo_datetime path mtime ExifLoad.invalidError strptime =
      (mtime, [Warning.invalidExif path]) ∧
    get_photo_datetime path mtime ExifLoad.otherError strptime =
      (mtime, [Warning.generalExif path]) ∧
    (s ≠ "" → strptime s = none →
      get_photo_datetime path mtime (ExifLoad.ok (some s)) strptime =
        (mtime, [Warning.generalExif path])) ∧
    get_photo_datetime path mtime (ExifLoad.ok none) strptime = (mtime, []) ∧
    get_photo_datetime path mtime (ExifLoad.ok (some "")) strptime =
      (mtime, []) := by
  refine ⟨rfl, rfl, fun hs hp => ?_, rfl, rfl⟩
  simp [get_photo_datetime, hs, hp]

/-- Witness for the amended C3 at concrete inputs. -/
theorem C3_photo_fallback_warnings_witness :
    get_photo_datetime "a.jpg" mt0 ExifLoad.invalidError strp0 =
      (mt0, [Warning.invalidExif "a.jpg"]) ∧
    get_photo_datetime "a.jpg" mt0 (ExifLoad.ok (some "bad")) strp0 =
      (mt0, [Warning.generalExif "a.jpg"]) := by
  exact ⟨(C3_photo_fallback_warnings "a.jpg" mt0 strp0 "bad").1,
    (C3_photo_fallback_warnings "a.jpg" mt0 strp0 "bad").2.2.1
      (by decide) (by decide)⟩

/-- C4: when the EXIF capture-time tag is present (non-empty) and
parses under the fixed format, the Resolver returns exactly the parsed
datetime — whatever its relation to the mtime. -/
theorem C4_photo_metadata_wins (path : String) (mtime : DateTime) (s : String)
    (dt : DateTime) (strptime : String → Option DateTime)
    (hs : s ≠ "") (hp : strptime s = some dt) :
    (get_photo_datetime path mtime (ExifLoad.ok (some s)) strptime).1 = dt := by
  simp [get_photo_datetime, hs, hp]

/-- Witness for C4: the demo EXIF string wins over an mtime that is
chronologically later. -/
theorem C4_photo_metadata_wins_witness :
    (get_photo_datetime "b.jpg" mt0 (ExifLoad.ok (some exifStr)) strp0).1 =
      dtExif :=
  C4_photo_metadata_wins "b.jpg" mt0 exifStr dtExif strp0 (by decide) (by decide)

/-- C5: when the prober exits with `CalledProcessError` or returns an
empty string, the video Resolver returns the mtime and logs nothing. -/
theorem C5_video_probe_silent (path : String) (mtime : DateTime)
    (iso : String → Option DateTime) :
    get_video_datetime path mtime ProbeResult.calledProcessError iso =
      (mtime, []) ∧
    get_video_datetime path mtime (ProbeResult.ok "") iso = (mtime, []) := by
  exact ⟨rfl, by simp [get_video_datetime]⟩

/-- C6: a non-empty prober string that parses as ISO-8601 after the
`Z`→`+00:00` substitution is returned as the resolved datetime with no
warning; a non-empty string that fails to parse yields one warning and
the mtime fallback. -/
theorem C6_video_iso (path : String) (mtime : DateTime) (s : String)
    (iso : String → Option DateTime) (hs : s ≠ "") :
    (∀ dt, iso (replaceChar s 'Z' "+00:00") = some dt →
      get_video_datetime path mtime (ProbeResult.ok s) iso = (dt, [])) ∧
    (iso (replaceChar s 'Z' "+00:00") = none →
      get_video_datetime path mtime (ProbeResult.ok s) iso =
        (mtime, [Warning.videoParse s])) := by
  constructor
  · intro dt hp
    simp [get_video_datetime, hs, hp]
  · intro hp
    simp [get_video_datetime, hs, hp]

/-- Witness for C6: the documented example string resolves to
2023-12-14 10:30:00, and an unparsable string warns and falls back. -/
theorem C6_video_iso_witness :
    get_video_datetime "c.mp4" mt0 (ProbeResult.ok isoRaw) iso0 = (dtIso, []) ∧
    get_video_datetime "c.mp4" mt0 (ProbeResult.ok "garbage") iso0 =
      (mt0, [Warning.videoParse "garbage"]) := by
  exact ⟨(C6_video_iso "c.mp4" mt0 isoRaw iso0 (by decide)).1 dtIso (by decide),
    (C6_video_iso "c.mp4" mt0 "garbage" iso0 (by decide)).2 (by decide)⟩

/-! ## Helper lemmas for the Converter and Dispatcher claims -/

/-- The destination generated with extension `.mp4` always carries the
`.mp4` suffix after joining with the output directory. -/
theorem ospath_join_mp4 (d : String) (t : Table) (dt : DateTime) :
    ∃ p, ospath_join d (generate_name_with_counter t dt ".mp4").2 =
      p ++ ".mp4" := by
  refine ⟨d ++ "/" ++ (dateStr dt.date ++ "_" ++
    padStr 3 (t (dateStr dt.date) + 1)), ?_⟩
  rw [ospath_join, generate_snd]
  apply String.ext
  simp [List.append_assoc]

/-- The audio codec string after the probe's `except
CalledProcessError` handler: the probed codec, or `unknown`. -/
def audioCodecOf : AudioProbe → String
  | .ok c => c
  | _ => "unknown"

/-- Reduction of `convert_video` when the audio probe does not raise:
a `done`/`ffmpegError` result carrying the joined destination and the
assembled command. -/
theorem convert_video_res (src dst_dir : String) (t : Table) (mtime : DateTime)
    (probe : ProbeResult) (iso : String → Option DateTime)
    (audioProbe : AudioProbe) (ffmpegOk : Bool)
    (hnr : ∀ m, audioProbe ≠ AudioProbe.otherRaise m) :
    (convert_video src dst_dir t mtime probe iso audioProbe ffmpegOk).2.2 =
      (if ffmpegOk then
        ConvertResult.done
          (ospath_join dst_dir (generate_name_with_counter t
            (get_video_datetime src mtime probe iso).1 ".mp4").2)
          (ffmpegBaseArgs src ++ audioArgs (audioCodecOf audioProbe) ++
            [ospath_join dst_dir (generate_name_with_counter t
              (get_video_datetime src mtime probe iso).1 ".mp4").2])
      else
        ConvertResult.ffmpegError
          (ospath_join dst_dir (generate_name_with_counter t
            (get_video_datetime src mtime probe iso).1 ".mp4").2)
          (ffmpegBaseArgs src ++ audioArgs (audioCodecOf audioProbe) ++
            [ospath_join dst_dir (generate_name_with_counter t
              (get_video_datetime src mtime probe iso).1 ".mp4").2])) := by
  cases audioProbe with
  | ok c => cases ffmpegOk <;> rfl
  | calledProcessError => cases ffmpegOk <;> rfl
  | otherRaise m => exact absurd rfl (hnr m)

/-- The table mutation of `convert_video` happens before any probe or
encode outcome is consulted. -/
theorem convert_video_fst (src dst_dir : String) (t : Table) (mtime : DateTime)
    (probe : ProbeResult) (iso : String → Option DateTime)
    (audioProbe : AudioProbe) (ffmpegOk : Bool) :
    (convert_video src dst_dir t mtime probe iso audioProbe ffmpegOk).1 =
      (generate_name_with_counter t
        (get_video_datetime src mtime probe iso).1 ".mp4").1 := by
  cases audioProbe with
  | ok c => cases ffmpegOk <;> rfl
  | calledProcessError => cases ffmpegOk <;> rfl
  | otherRaise m => rfl

/-- The two fixed extension sets are disjoint. -/
theorem photo_video_disjoint :
    ∀ s ∈ VIDEO_EXTENSIONS, s ∉ PHOTO_EXTENSIONS := by decide

/-- C7: every conversion targets a `.mp4` destination regardless of
the source container, always stream-copies video with metadata
propagation and fast-start, and stream-copies audio exactly when the
probed codec is `aac` (probe failure yields the sentinel `unknown`,
hence a re-encode to AAC at 192k). -/
theorem C7_convert_policy (src dst_dir : String) (t : Table) (mtime : DateTime)
    (probe : ProbeResult) (iso : String → Option DateTime)
    (audioProbe : AudioProbe) (ffmpegOk : Bool) (dst : String)
    (cmd : List String)
    (h : (convert_video src dst_dir t mtime probe iso audioProbe ffmpegOk).2.2 =
          ConvertResult.done dst cmd ∨
        (convert_video src dst_dir t mtime probe iso audioProbe ffmpegOk).2.2 =
          ConvertResult.ffmpegError dst cmd) :
    (∃ p, dst = p ++ ".mp4") ∧
    ∃ aargs, cmd = ffmpegBaseArgs src ++ aargs ++ [dst] ∧
      (aargs = ["-c:a", "copy"] ∨ aargs = ["-c:a", "aac", "-b:a", "192k"]) ∧
      (aargs = ["-c:a", "copy"] ↔ audioProbe = AudioProbe.ok "aac") := by
  have hnr : ∀ m, audioProbe ≠ AudioProbe.otherRaise m := by
    intro m hm
    subst hm
    have hpr : (convert_video src dst_dir t mtime probe iso
        (AudioProbe.otherRaise m) ffmpegOk).2.2 = ConvertResult.probeRaise m := rfl
    rcases h with h | h <;> rw [hpr] at h <;> exact ConvertResult.noConfusion h
  rw [convert_video_res src dst_dir t mtime probe iso audioProbe ffmpegOk hnr] at h
  have hdst : dst = ospath_join dst_dir (generate_name_with_counter t
      (get_video_datetime src mtime probe iso).1 ".mp4").2 := by
    cases ffmpegOk <;> simp at h <;> exact h.1.symm
  have hcmd : cmd = ffmpegBaseArgs src ++ audioArgs (audioCodecOf audioProbe) ++
      [ospath_join dst_dir (generate_name_with_counter t
        (get_video_datetime src mtime probe iso).1 ".mp4").2] := by
    cases ffmpegOk <;> simp at h <;> exact h.2.symm
  constructor
  · rw [hdst]
    exact ospath_join_mp4 dst_dir t (get_video_datetime src mtime probe iso).1
  · refine ⟨audioArgs (audioCodecOf audioProbe), by rw [hcmd, hdst], ?_, ?_⟩
    · cases audioProbe with
      | ok c =>
        by_cases hc : c = "aac"
        · subst hc; left; rfl
        · right; simp [audioCodecOf, audioArgs, hc]
      | calledProcessError => right; rfl
      | otherRaise m => exact absurd rfl (hnr m)
    · cases audioProbe with
      | ok c =>
        by_cases hc : c = "aac"
        · subst hc
          simp [audioCodecOf, audioArgs]
        · simp [audioCodecOf, audioArgs, hc]
      | calledProcessError =>
        simp [audioCodecOf, audioArgs]
      | otherRaise m => exact absurd rfl (hnr m)

/-- Witness for C7: a source `.mov` with audio already `aac` is
converted with a stream-copied audio track to a `.mp4` destination. -/
theorem C7_convert_policy_witness :
    (∃ p, "out/2023_05_10_001.mp4" = p ++ ".mp4") ∧
    ∃ aargs,
      ["ffmpeg", "-i", "in/b.mov", "-map_metadata", "0", "-c:v", "copy",
        "-movflags", "+faststart", "-c:a", "copy", "out/2023_05_10_001.mp4"] =
        ffmpegBaseArgs "in/b.mov" ++ aargs ++ ["out/2023_05_10_001.mp4"] ∧
      (aargs = ["-c:a", "copy"] ∨ aargs = ["-c:a", "aac", "-b:a", "192k"]) ∧
      (aargs = ["-c:a", "copy"] ↔
        AudioProbe.ok "aac" = AudioProbe.ok "aac") :=
  C7_convert_policy "in/b.mov" "out" emptyTable wDT
    ProbeResult.calledProcessError (fun _ => none) (AudioProbe.ok "aac") true
    "out/2023_05_10_001.mp4"
    ["ffmpeg", "-i", "in/b.mov", "-map_metadata", "0", "-c:v", "copy",
      "-movflags", "+faststart", "-c:a", "copy", "out/2023_05_10_001.mp4"]
    (Or.inl (by decide))

/-- Demo environment: a photo whose copy raises (for example, a full
disk), embedded metadata absent. -/
def wEnvCopyFail : FileEnv :=
  ⟨wDT, ExifLoad.ok none, fun _ => none, ProbeResult.calledProcessError,
    fun _ => none, AudioProbe.calledProcessError, some "disk full", true⟩

/-- Demo environment: the same photo setup with a succeeding copy. -/
def wEnvCopyOk : FileEnv :=
  ⟨wDT, ExifLoad.ok none, fun _ => none, ProbeResult.calledProcessError,
    fun _ => none, AudioProbe.calledProcessError, none, true⟩

/-- C8: the Dispatcher skips files matching neither extension set or
failing the mode gate, turns every Copier failure into a logged
per-file outcome carrying the path and the error detail, distinguishes
the ffmpeg non-zero-exit failure from other Converter failures while
handling both the same way, and processes every file of a batch to an
outcome — no per-file failure aborts the run. -/
theorem C8_dispatcher_policy :
    (∀ (path output_dir mode : String) (t : Table) (env : FileEnv),
      ¬(strToLower (splitextExt path) ∈ PHOTO_EXTENSIONS ∧
          (mode = "photo" ∨ mode = "both")) →
      ¬(strToLower (splitextExt path) ∈ VIDEO_EXTENSIONS ∧
          (mode = "video" ∨ mode = "both")) →
      process_file path output_dir mode t env = (t, [], FileOutcome.skipped)) ∧
    (∀ (path output_dir mode : String) (t : Table) (env : FileEnv) (m : String),
      strToLower (splitextExt path) ∈ PHOTO_EXTENSIONS →
      (mode = "photo" ∨ mode = "both") →
      env.copyExc = some m →
      (process_file path output_dir mode t env).2.2 =
        FileOutcome.photoFail path m) ∧
    (∀ (path output_dir mode : String) (t : Table) (env : FileEnv),
      strToLower (splitextExt path) ∈ VIDEO_EXTENSIONS →
      (mode = "video" ∨ mode = "both") →
      (∀ m, env.audioProbe ≠ AudioProbe.otherRaise m) →
      env.ffmpegOk = false →
      (process_file path output_dir mode t env).2.2 =
        FileOutcome.videoFfmpegFail path) ∧
    (∀ (path output_dir mode : String) (t : Table) (env : FileEnv) (m : String),
      strToLower (splitextExt path) ∈ VIDEO_EXTENSIONS →
      (mode = "video" ∨ mode = "both") →
      env.audioProbe = AudioProbe.otherRaise m →
      (process_file path output_dir mode t env).2.2 =
        FileOutcome.videoFail path m) ∧
    (∀ (output_dir mode : String) (t : Table)
        (files : List (String × FileEnv)),
      (processAll output_dir mode t files).2.length = files.length) := by
  refine ⟨?_, ?_, ?_, ?_, ?_⟩
  · intro path output_dir mode t env hnp hnv
    unfold process_file
    rw [if_neg hnp, if_neg hnv]
  · intro path output_dir mode t env m hp hmode hexc
    unfold process_file
    rw [if_pos ⟨hp, hmode⟩]
    unfold copy_photo
    rw [hexc]
  · intro path output_dir mode t env hv hmode hnr hff
    have hnp : ¬(strToLower (splitextExt path) ∈ PHOTO_EXTENSIONS ∧
        (mode = "photo" ∨ mode = "both")) := by
      intro hcon
      exact photo_video_disjoint _ hv hcon.1
    unfold process_file
    rw [if_neg hnp, if_pos ⟨hv, hmode⟩]
    dsimp only
    rw [convert_video_res path output_dir t env.mtime env.probe
      env.fromisoformat env.audioProbe env.ffmpegOk hnr, hff]
    rfl
  · intro path output_dir mode t env m hv hmode har
    have hnp : ¬(strToLower (splitextExt path) ∈ PHOTO_EXTENSIONS ∧
        (mode = "photo" ∨ mode = "both")) := by
      intro hcon
      exact photo_video_disjoint _ hv hcon.1
    unfold process_file
    rw [if_neg hnp, if_pos ⟨hv, hmode⟩]
    have : (convert_video path output_dir t env.mtime env.probe
        env.fromisoformat env.audioProbe env.ffmpegOk).2.2 =
        ConvertResult.probeRaise m := by
      rw [har]
      rfl
    dsimp only
    rw [this]
  · intro output_dir mode t files
    induction files generalizing t with
    | nil => rfl
    | cons f rest ih =>
      obtain ⟨p, env⟩ := f
      simp only [processAll, List.length_cons]
      rw [ih]

/-- Witness for C8: a `.txt` file is skipped, and a photo whose copy
raises is logged with its path and error without aborting. -/
theorem C8_dispatcher_policy_witness :
    process_file "in/notes.txt" "out" "photo" emptyTable wEnvCopyFail =
      (emptyTable, [], FileOutcome.skipped) ∧
    (process_file "in/a.jpg" "out" "photo" emptyTable wEnvCopyFail).2.2 =
      FileOutcome.photoFail "in/a.jpg" "disk full" := by
  exact ⟨C8_dispatcher_policy.1 "in/notes.txt" "out" "photo" emptyTable
      wEnvCopyFail (by decide) (by decide),
    C8_dispatcher_policy.2.1 "in/a.jpg" "out" "photo" emptyTable wEnvCopyFail
      "disk full" (by decide) (by decide) rfl⟩

/-- C9: counter allocation is not atomic with output production — when
the copy or the encode fails after the Namer ran, the table entry for
the file's date stays incremented and no output is produced, so the
counters of actually produced files can have gaps (concretely: a
failed first copy leaves only `\x2e\x2e\x2e_002` in the output). -/
theorem C9_counter_consumed :
    (∀ (src dst_dir : String) (t : Table) (mtime : DateTime) (exif : ExifLoad)
        (strp : String → Option DateTime) (m : String),
      (copy_photo src dst_dir t mtime exif strp (some m)).1
          (dateStr (get_photo_datetime src mtime exif strp).1.date) =
        t (dateStr (get_photo_datetime src mtime exif strp).1.date) + 1 ∧
      (copy_photo src dst_dir t mtime exif strp (some m)).2.2 =
        CopyResult.copyRaise m) ∧
    (∀ (src dst_dir : String) (t : Table) (mtime : DateTime)
        (probe : ProbeResult) (iso : String → Option DateTime)
        (audioProbe : AudioProbe),
      (convert_video src dst_dir t mtime probe iso audioProbe false).1
          (dateStr (get_video_datetime src mtime probe iso).1.date) =
        t (dateStr (get_video_datetime src mtime probe iso).1.date) + 1 ∧
      ∀ dst cmd,
        (convert_video src dst_dir t mtime probe iso audioProbe false).2.2 ≠
          ConvertResult.done dst cmd) ∧
    (processAll "out" "photo" emptyTable
        [("in/a.jpg", wEnvCopyFail), ("in/b.jpg", wEnvCopyOk)]).2 =
      [FileOutcome.photoFail "in/a.jpg" "disk full",
        FileOutcome.copied "out/2023_05_10_002.jpg"] := by
  refine ⟨?_, ?_, by decide⟩
  · intro src dst_dir t mtime exif strp m
    constructor
    · show (generate_name_with_counter t
          (get_photo_datetime src mtime exif strp).1
          (strToLower (splitextExt src))).1 _ = _
      rw [generate_fst]
      simp
    · rfl
  · intro src dst_dir t mtime probe iso audioProbe
    constructor
    · rw [convert_video_fst src dst_dir t mtime probe iso audioProbe false,
        generate_fst]
      simp
    · intro dst cmd
      cases audioProbe with
      | ok c =>
        rw [convert_video_res src dst_dir t mtime probe iso (AudioProbe.ok c)
          false (fun m => AudioProbe.noConfusion)]
        simp
      | calledProcessError =>
        rw [convert_video_res src dst_dir t mtime probe iso
          AudioProbe.calledProcessError false (fun m => AudioProbe.noConfusion)]
        simp
      | otherRaise m =>
        intro hcon
        exact ConvertResult.noConfusion hcon

/-- Table with 999 files already allocated on 2023-05-10. -/
def w999 : Table := fun k => if k = "2023_05_10" then 999 else 0

/-- C10: past 999 per-day files the counter is rendered at its full
decimal width — no truncation, wraparound, or failure, and its value
is preserved — so run-wide filename uniqueness still holds, but the
fixed three-digit width is exceeded and zero-padded lexicographic
order disagrees with numeric order (`\x2e\x2e\x2e_1000` sorts before
`\x2e\x2e\x2e_999`). -/
theorem C10_counter_overflow :
    (∀ n, 1000 ≤ n →
      padList 3 n = natDigits n ∧ 3 < (padList 3 n).length ∧
      digitsVal (padList 3 n) = n) ∧
    (∀ (t : Table) (dt : DateTime) (ext : String), 999 ≤ t (dateStr dt.date) →
      (generate_name_with_counter t dt ext).2 =
        dateStr dt.date ++ "_" ++ padStr 3 (t (dateStr dt.date) + 1) ++ ext ∧
      3 < (padStr 3 (t (dateStr dt.date) + 1)).data.length) ∧
    (∀ (cs : List Call), (∀ c ∈ cs, c.dt.date.Valid) →
      (∀ c ∈ cs, extOK c.ext = true) →
      ∀ (i j : Nat) (ci cj : Call), cs[i]? = some ci → cs[j]? = some cj →
      i < j →
      ((runNamer emptyTable cs).2)[i]? ≠ ((runNamer emptyTable cs).2)[j]?) ∧
    ((dateStr ⟨2023, 5, 10⟩ ++ "_" ++ padStr 3 1000 ++ ".jpg").data <
        (dateStr ⟨2023, 5, 10⟩ ++ "_" ++ padStr 3 999 ++ ".jpg").data ∧
      (999 : Nat) < 1000) := by
  have hwide : ∀ n, 1000 ≤ n → 3 < (natDigits n).length := by
    intro n hn
    have : (10 : Nat) ^ 3 ≤ n := by norm_num; omega
    have := natDigits_length_ge this
    omega
  refine ⟨?_, ?_, ?_, by decide, by omega⟩
  · intro n hn
    have hlen := hwide n hn
    have hpad : padList 3 n = natDigits n := by
      rw [padList, show 3 - (natDigits n).length = 0 by omega]
      simp
    refine ⟨hpad, ?_, digitsVal_padList 3 n⟩
    rw [hpad]
    omega
  · intro t dt ext hcnt
    refine ⟨generate_snd t dt ext, ?_⟩
    show 3 < (padList 3 (t (dateStr dt.date) + 1)).length
    rw [padList_length]
    have := hwide (t (dateStr dt.date) + 1) (by omega)
    omega
  · intro cs hval hext i j ci cj hi hj hij
    exact runNamer_names_ne hval hext hi hj hij

/-- Witness for C10: with 999 files already allocated on 2023-05-10,
the next generated name carries the four-digit counter `1000`. -/
theorem C10_counter_overflow_witness :
    (generate_name_with_counter w999 wDT ".jpg").2 = "2023_05_10_1000.jpg" ∧
    3 < (padStr 3 (w999 (dateStr wDT.date) + 1)).data.length := by
  have h := C10_counter_overflow.2.1 w999 wDT ".jpg" (by decide)
  exact ⟨h.1.trans (by decide), h.2⟩

end Camera
